import Mathlib

/-!
Verification development for the DuckDuckGo search client
(src/phi/Lib/site-packages/duckduckgo_search/duckduckgo_search.py).

The Python class DDGS is shallowly embedded: every network response is an
explicit input (an environment mapping a page offset, respectively a request,
to the data the provider would return), mutable per-call state (the dedup
cache, the fail-fast event, the chat history) is threaded explicitly, and the
concurrent executor.map is modelled by its sequential semantics, which
preserves submission order exactly as the source relies on.

Text normalization and URL normalization live in the package's utils module,
which is not among the sources; the embedding therefore takes them as
function parameters (norm, nurl) and every theorem quantifies over them.
-/

namespace Ddgs

/-- A text search result record: the dict built by the text back ends. -/
structure SearchResult where
  title : String
  href : String
  body : String
deriving DecidableEq, Repr

/-- One JSON row of the d.js payload, as used by _text_api_page:
field u is the raw href (absent models a row without the key),
t the raw title, a the raw body snippet. -/
structure TextRow where
  u : Option String
  t : String
  a : String
deriving DecidableEq, Repr

/-! ## Transport: _get_url and the fail-fast latch -/

/-- What the underlying primp client does for one request: either the request
itself raises (carrying the exception class name and its text), or a response
with a status code, a response url and a body arrives. -/
inductive NetResult where
  | exn (exName : String) (exMsg : String)
  | resp (status : Nat) (respUrl : String) (body : String)
deriving DecidableEq, Repr

/-- The exception taxonomy raised by _get_url (TimeoutException,
RatelimitException, DuckDuckGoSearchException), each carrying its message. -/
inductive DdgError where
  | timeout (msg : String)
  | ratelimit (msg : String)
  | generic (msg : String)
deriving DecidableEq, Repr

/-- Whether pat is a prefix of s, on character lists. -/
def charsHavePre : List Char → List Char → Bool
  | [], _ => true
  | _ :: _, [] => false
  | p :: ps, c :: cs => p == c && charsHavePre ps cs

/-- Whether pat occurs as a contiguous substring of s, on character lists. -/
def charsHaveSub : List Char → List Char → Bool
  | pat, [] => pat.isEmpty
  | pat, c :: cs => charsHavePre pat (c :: cs) || charsHaveSub pat cs

/-- Python substring containment, s contains pat, as used by the check
"time" in str(ex).lower(). -/
def hasSubstr (s pat : String) : Bool :=
  charsHaveSub pat.data s.data

/-- Python str.lower, character by character. -/
def lowerStr (s : String) : String :=
  String.mk (s.data.map Char.toLower)

/-- Embedding of DDGS._get_url.  State in: the _exception_event flag.
Out: (outcome, flag after the call, whether a network request was attempted).
The message strings follow the source's f-strings, with the debug echo of
the request parameters omitted from the generic non-200 message. -/
def getUrl (tripped : Bool) (url : String) (net : NetResult) :
    (Except DdgError String) × Bool × Bool :=
  if tripped then
    (.error (.generic "Exception occurred in previous call."), true, false)
  else
    match net with
    | .exn exName exMsg =>
      if hasSubstr (lowerStr exMsg) "time" then
        (.error (.timeout (url ++ " " ++ exName ++ ": " ++ exMsg)), true, true)
      else
        (.error (.generic (url ++ " " ++ exName ++ ": " ++ exMsg)), true, true)
    | .resp status respUrl body =>
      if status = 200 then
        (.ok body, tripped, true)
      else if status = 202 ∨ status = 301 ∨ status = 403 then
        (.error (.ratelimit (respUrl ++ " " ++ toString status ++ " Ratelimit")), true, true)
      else
        (.error (.generic (respUrl ++ " return None.")), true, true)

/-- A sequence of _get_url calls on one instance, threading the event flag;
each entry of the output is (outcome, whether network I/O was attempted). -/
def runGetUrl : Bool → List (String × NetResult) → List ((Except DdgError String) × Bool)
  | _, [] => []
  | tripped, (url, net) :: rest =>
    ((getUrl tripped url net).1, (getUrl tripped url net).2.2) ::
      runGetUrl (getUrl tripped url net).2.1 rest

/-- The event flag after a sequence of _get_url calls. -/
def trippedAfter : Bool → List (String × NetResult) → Bool
  | t, [] => t
  | t, (url, net) :: rest => trippedAfter (getUrl t url net).2.1 rest

/-! ## Page-offset schedules -/

/-- Python range(start, stop, step) over naturals, step positive. -/
def pyRange (start stop step : Nat) : List Nat :=
  List.range' start ((stop - start + step - 1) / step) step

/-- The slist construction shared by every paginated back end:
slist = [0]; if max_results: max_results = min(max_results, ceiling);
slist.extend(range(start, max_results, stride)).  A given value of 0 is
falsy in Python, leaving just the first page. -/
def searchOffsets (start stride ceiling : Nat) : Option Nat → List Nat
  | none => [0]
  | some n => if n = 0 then [0] else 0 :: pyRange start (min n ceiling) stride

/-- Offsets of _text_api, _text_html, _text_lite: [0] + range(23, min(n, 2023), 50). -/
def textOffsets : Option Nat → List Nat := searchOffsets 23 50 2023

/-- Offsets of images: [0] + range(100, min(n, 500), 100). -/
def imagesOffsets : Option Nat → List Nat := searchOffsets 100 100 500

/-- Offsets of videos: [0] + range(60, min(n, 400), 60). -/
def videosOffsets : Option Nat → List Nat := searchOffsets 60 60 400

/-- Offsets of news: [0] + range(30, min(n, 120), 30). -/
def newsOffsets : Option Nat → List Nat := searchOffsets 30 30 120

/-! ## The api text back end -/

/-- The ad filter of _text_api_page: href != f"http://www.google.com/search?q={keywords}". -/
def googleLink (kw : String) : String :=
  "http://www.google.com/search?q=" ++ kw

/-- Embedding of the row loop of _text_api_page: the dedup cache is the list
of previously accepted raw hrefs (in acceptance order); a row is accepted when
its href is present, truthy, unseen and not the google redirect; acceptance
records the href in the cache before the body check, so a row whose normalized
body is empty still consumes its key. -/
def textApiPage (norm nurl : String → String) (kw : String) :
    List TextRow → List String → List SearchResult × List String
  | [], cache => ([], cache)
  | row :: rest, cache =>
    match row.u with
    | none => textApiPage norm nurl kw rest cache
    | some href =>
      if href ≠ "" ∧ href ∉ cache ∧ href ≠ googleLink kw then
        if norm row.a ≠ "" then
          let r := textApiPage norm nurl kw rest (cache ++ [href])
          (⟨norm row.t, nurl href, norm row.a⟩ :: r.1, r.2)
        else
          textApiPage norm nurl kw rest (cache ++ [href])
      else
        textApiPage norm nurl kw rest cache

/-- The executor.map / results.extend loop shared by the text back ends:
pages are processed in scheduled offset order, threading the shared cache. -/
def runPagesC (pageFn : α → List String → List SearchResult × List String)
    (env : Nat → α) : List Nat → List String → List SearchResult × List String
  | [], cache => ([], cache)
  | s :: rest, cache =>
    let p := pageFn (env s) cache
    let r := runPagesC pageFn env rest p.2
    (p.1 ++ r.1, r.2)

/-- list(islice(results, max_results)): islice with None keeps everything. -/
def truncateTo : Option Nat → List α → List α
  | none, xs => xs
  | some n, xs => xs.take n

/-- The truncation bound the back ends hand to islice: inside the
if max_results block the local max_results is reassigned to
min(max_results, ceiling) (None and 0 are falsy and stay unchanged), and
list(islice(results, max_results)) then reads the reassigned value. -/
def clampedMax (ceiling : Nat) : Option Nat → Option Nat
  | none => none
  | some n => if n = 0 then some 0 else some (min n ceiling)

/-- Embedding of _text_api: schedule offsets, merge pages in offset order
through the shared dedup cache, truncate at the clamped bound. -/
def textApiSearch (norm nurl : String → String) (env : Nat → List TextRow)
    (kw : String) (maxResults : Option Nat) : List SearchResult :=
  truncateTo (clampedMax 2023 maxResults)
    (runPagesC (textApiPage norm nurl kw) env (textOffsets maxResults) []).1

/-! ## The html text back end -/

/-- The startswith filter of the html and lite back ends:
href.startswith(("http://www.google.com/search?q=", "https://duckduckgo.com/y.js?ad_domain")). -/
def blockedLink (href : String) : Bool :=
  ("http://www.google.com/search?q=").isPrefixOf href ||
    ("https://duckduckgo.com/y.js?ad_domain").isPrefixOf href

/-- One result container div[h2] of the html layout, with the values its
xpath queries extract: the first ./a/@href when present, the first
./h2/a/text() (empty when absent), and the joined ./a//text(). -/
structure HtmlRow where
  href : Option String
  title : String
  body : String
deriving DecidableEq, Repr

/-- One html response page: whether the bytes contain the literal
"No  results." marker, and the extracted containers otherwise. -/
structure HtmlPage where
  noResults : Bool
  rows : List HtmlRow
deriving DecidableEq, Repr

/-- Embedding of the element loop of _text_html_page: a container is accepted
when its href is present, truthy, unseen and not a blocked link; the html
back end appends the result unconditionally after acceptance. -/
def htmlRows (norm nurl : String → String) :
    List HtmlRow → List String → List SearchResult × List String
  | [], cache => ([], cache)
  | e :: rest, cache =>
    match e.href with
    | none => htmlRows norm nurl rest cache
    | some href =>
      if href ≠ "" ∧ href ∉ cache ∧ ¬ blockedLink href then
        let r := htmlRows norm nurl rest (cache ++ [href])
        (⟨norm e.title, nurl href, norm e.body⟩ :: r.1, r.2)
      else
        htmlRows norm nurl rest cache

/-- Embedding of _text_html_page. -/
def textHtmlPage (norm nurl : String → String) (page : HtmlPage)
    (cache : List String) : List SearchResult × List String :=
  if page.noResults then ([], cache) else htmlRows norm nurl page.rows cache

/-- Embedding of _text_html: truncates at the clamped bound like _text_api. -/
def textHtmlSearch (norm nurl : String → String) (env : Nat → HtmlPage)
    (maxResults : Option Nat) : List SearchResult :=
  truncateTo (clampedMax 2023 maxResults)
    (runPagesC (textHtmlPage norm nurl) env (textOffsets maxResults) []).1

/-! ## The lite text back end -/

/-- One tr of the last table of the lite layout, with the values its xpath
queries extract: the first .//a//@href when an anchor is present, the first
.//a//text(), and the stripped joined text of td[class result-snippet]. -/
structure LiteRow where
  href : Option String
  atext : String
  snippet : String
deriving DecidableEq, Repr

/-- One lite response page: whether the bytes contain the literal
"No more results." marker, and the extracted table rows otherwise. -/
structure LitePage where
  noMore : Bool
  rows : List LiteRow
deriving DecidableEq, Repr

/-- Embedding of the row loop of _text_lite_page.  The source zips the rows
with cycle(range(1, 5)); the parameter i is the cycle position of the head
row, href and title are the loop-carried Python locals.  A row at position 1
that is filtered (no href, href already cached, or a blocked link) makes the
source consume the next three (position, row) pairs from the zip iterator, so
the embedding consumes the next three rows (ending like the exhausted
iterator when fewer remain) and restarts at position 1.  The incoming href is
ignored at position 1 because the source reassigns it there before any use.
At position 2 a result is appended exactly when the carried href is truthy;
positions 3 and 4 do nothing. -/
def liteRows (norm nurl : String → String) :
    List LiteRow → Nat → Option String → String → List String →
    List SearchResult × List String
  | [], _, _, _, cache => ([], cache)
  | e :: rest, 1, _, title, cache =>
    match e.href, rest with
    | none, _ :: _ :: _ :: tail => liteRows norm nurl tail 1 none title cache
    | none, _ => ([], cache)
    | some h, r2 :: r3 :: r4 :: tail =>
      if h ∈ cache ∨ blockedLink h then
        liteRows norm nurl tail 1 (some h) title cache
      else
        liteRows norm nurl (r2 :: r3 :: r4 :: tail) 2 (some h) e.atext
          (cache ++ [h])
    | some h, shortRest =>
      if h ∈ cache ∨ blockedLink h then ([], cache)
      else liteRows norm nurl shortRest 2 (some h) e.atext (cache ++ [h])
  | e :: rest, 2, href, title, cache =>
    match href with
    | some h =>
      if h ≠ "" then
        let r := liteRows norm nurl rest 3 (some h) title cache
        (⟨norm title, nurl h, norm e.snippet⟩ :: r.1, r.2)
      else liteRows norm nurl rest 3 (some h) title cache
    | none => liteRows norm nurl rest 3 none title cache
  | _ :: rest, i, href, title, cache =>
    liteRows norm nurl rest (if i = 4 then 1 else i + 1) href title cache

/-- Embedding of _text_lite_page: the loop starts at cycle position 1 with
the href and title locals unassigned (their initial values are never read
before assignment, rendered here as none and the empty string). -/
def textLitePage (norm nurl : String → String) (page : LitePage)
    (cache : List String) : List SearchResult × List String :=
  if page.noMore then ([], cache)
  else liteRows norm nurl page.rows 1 none "" cache

/-- Embedding of _text_lite: truncates at the clamped bound like _text_api. -/
def textLiteSearch (norm nurl : String → String) (env : Nat → LitePage)
    (maxResults : Option Nat) : List SearchResult :=
  truncateTo (clampedMax 2023 maxResults)
    (runPagesC (textLitePage norm nurl) env (textOffsets maxResults) []).1

/-! ## The public text dispatch -/

/-- Embedding of DDGS.text: when lxml is unavailable a non-api backend falls
back to api; then the three-way dispatch assigns results, and any other
backend string reaches the final return with the results local never
assigned, an UnboundLocalError rendered as none. -/
def text (norm nurl : String → String) (lxmlAvailable : Bool)
    (apiEnv : Nat → List TextRow) (htmlEnv : Nat → HtmlPage)
    (liteEnv : Nat → LitePage) (kw : String) (backend : String)
    (maxResults : Option Nat) : Option (List SearchResult) :=
  let backend := if lxmlAvailable = false ∧ backend ≠ "api" then "api" else backend
  if backend = "api" then some (textApiSearch norm nurl apiEnv kw maxResults)
  else if backend = "html" then some (textHtmlSearch norm nurl htmlEnv maxResults)
  else if backend = "lite" then some (textLiteSearch norm nurl liteEnv maxResults)
  else none

/-! ## The chat session -/

/-- One decoded fragment of the chat response stream: the relevant keys of
the JSON object (absent keys model x.get returning None). -/
structure ChatFragment where
  action : Option String
  errType : Option String
  status : Option Int
  message : Option String
deriving DecidableEq, Repr

/-- Outcome of decoding the fragment stream: the collected message parts, or
the exception the source raises on the first error fragment
(ConversationLimitException, RatelimitException, DuckDuckGoSearchException). -/
inductive ChatResult where
  | ok (parts : List String)
  | convLimit (msg : String)
  | rateLimit (msg : String)
  | fail (msg : String)
deriving DecidableEq, Repr

/-- Whether a ChatResult is the non-raising outcome. -/
def ChatResult.isOk : ChatResult → Bool
  | .ok _ => true
  | _ => false

/-- Embedding of the fragment loop of chat: the first fragment whose action
is "error" raises, classified by status 429 and the error code in its type
key; otherwise a truthy message is collected. -/
def chatDecode : List ChatFragment → List String → ChatResult
  | [], acc => .ok acc.reverse
  | x :: rest, acc =>
    if x.action = some "error" then
      if x.status = some 429 then
        if x.errType.getD "" = "ERR_CONVERSATION_LIMIT" then
          .convLimit (x.errType.getD "")
        else
          .rateLimit (x.errType.getD "")
      else
        .fail (x.errType.getD "")
    else
      if x.message.getD "" = "" then chatDecode rest acc
      else chatDecode rest (x.message.getD "" :: acc)

/-- One message of the chat history. -/
structure ChatMsg where
  role : String
  content : String
deriving DecidableEq, Repr

/-- The per-instance chat state: _chat_messages, _chat_vqd, _chat_tokens_count. -/
structure ChatState where
  chatMessages : List ChatMsg
  chatVqd : String
  chatTokensCount : Nat
deriving DecidableEq, Repr

/-- Embedding of one chat call.  statusVqd is the x-vqd-4 header of the lazy
status handshake (read only when the stored token is empty), respVqd the
x-vqd-4 header of the chat response, frags its decoded fragment stream.  The
user turn is appended and the token replaced before the stream is decoded;
only a non-raising decode appends the assistant turn. -/
def chatCall (st : ChatState) (kw : String) (statusVqd respVqd : String)
    (frags : List ChatFragment) : ChatResult × ChatState :=
  let st0 := if st.chatVqd = "" then { st with chatVqd := statusVqd } else st
  let st1 := { st0 with
    chatMessages := st0.chatMessages ++ [ChatMsg.mk "user" kw],
    chatTokensCount :=
      st0.chatTokensCount + (if 4 ≤ kw.length then kw.length / 4 else 1) }
  let st2 := { st1 with chatVqd := respVqd }
  match chatDecode frags [] with
  | .ok parts =>
    (.ok parts, { st2 with
      chatMessages := st2.chatMessages ++ [ChatMsg.mk "assistant" (String.join parts)],
      chatTokensCount := st2.chatTokensCount + parts.length })
  | e => (e, st2)

/-! ## The maps geo-partitioning rounds -/

/-- A bounding box (top latitude, left longitude, bottom latitude, right
longitude); Decimal coordinates are embedded as rationals, which the exact
decimal arithmetic of the source injects into. -/
structure BBox where
  latT : ℚ
  lonL : ℚ
  latB : ℚ
  lonR : ℚ
deriving DecidableEq, Repr

/-- Modelled from the spec: the diagonal-span measure of
utils._calculate_distance (the utils module is absent from the sources).  The
spec fixes only that a box is due for subdivision when its diagonal span
exceeds a threshold of about one degree, rendered exactly as the squared
diagonal of the coordinate rectangle exceeding one. -/
def boxSpanExceeds (b : BBox) : Bool :=
  decide (1 < (b.latT - b.latB) * (b.latT - b.latB) +
    (b.lonR - b.lonL) * (b.lonR - b.lonL))

/-- The four quadrant boxes built from a box's latitude and longitude
midpoints, in the enqueue order of the source (bbox1, bbox2, bbox3, bbox4). -/
def quadrants (b : BBox) : List BBox :=
  [BBox.mk b.latT b.lonL ((b.latT + b.latB) / 2) ((b.lonL + b.lonR) / 2),
   BBox.mk b.latT ((b.lonL + b.lonR) / 2) ((b.latT + b.latB) / 2) b.lonR,
   BBox.mk ((b.latT + b.latB) / 2) b.lonL b.latB ((b.lonL + b.lonR) / 2),
   BBox.mk ((b.latT + b.latB) / 2) ((b.lonL + b.lonR) / 2) b.latB b.lonR]

/-- Embedding of the queue-building loop of one round of maps.  The source
checks _calculate_distance(lat_t, lon_l, lat_b, lon_r) on the loop-carried
locals and only then rebinds them to the current bbox: v is the carried
quadruple (initially the start box), and on a passing check the current box is
subdivided and becomes the carried quadruple.  Returns the queue for the next
round and the carried quadruple at round end. -/
def mapsRound : BBox → List BBox → List BBox × BBox
  | v, [] => ([], v)
  | v, b :: rest =>
    if boxSpanExceeds v then
      let r := mapsRound b rest
      (quadrants b ++ r.1, r.2)
    else
      mapsRound v rest

/-- Rendering of the claim sentence itself, for comparison: exactly those
boxes of the work set whose own diagonal span exceeds the threshold are
subdivided, each into its four quadrants, in work order. -/
def mapsRoundClaimed : List BBox → List BBox
  | [] => []
  | b :: rest =>
    (if boxSpanExceeds b then quadrants b else []) ++ mapsRoundClaimed rest

/-- Membership of a coordinate pair in a box (closed rectangle). -/
def pointInBox (la lo : ℚ) (b : BBox) : Prop :=
  b.latB ≤ la ∧ la ≤ b.latT ∧ b.lonL ≤ lo ∧ lo ≤ b.lonR

/-- Whether a transport outcome is a raised exception. -/
def failed : Except DdgError String → Bool
  | .ok _ => false
  | .error _ => true

/-! ## Offset-schedule lemmas -/

theorem mem_pyRange_23_50 (b k : Nat) :
    k ∈ pyRange 23 b 50 ↔ 23 ≤ k ∧ k < b ∧ (k - 23) % 50 = 0 := by
  simp only [pyRange, List.mem_range']
  constructor
  · rintro ⟨i, hi, rfl⟩
    omega
  · rintro ⟨h1, h2, h3⟩
    exact ⟨(k - 23) / 50, by omega, by omega⟩

theorem mem_pyRange_100_100 (b k : Nat) :
    k ∈ pyRange 100 b 100 ↔ 100 ≤ k ∧ k < b ∧ (k - 100) % 100 = 0 := by
  simp only [pyRange, List.mem_range']
  constructor
  · rintro ⟨i, hi, rfl⟩
    omega
  · rintro ⟨h1, h2, h3⟩
    exact ⟨(k - 100) / 100, by omega, by omega⟩

theorem mem_pyRange_60_60 (b k : Nat) :
    k ∈ pyRange 60 b 60 ↔ 60 ≤ k ∧ k < b ∧ (k - 60) % 60 = 0 := by
  simp only [pyRange, List.mem_range']
  constructor
  · rintro ⟨i, hi, rfl⟩
    omega
  · rintro ⟨h1, h2, h3⟩
    exact ⟨(k - 60) / 60, by omega, by omega⟩

theorem mem_pyRange_30_30 (b k : Nat) :
    k ∈ pyRange 30 b 30 ↔ 30 ≤ k ∧ k < b ∧ (k - 30) % 30 = 0 := by
  simp only [pyRange, List.mem_range']
  constructor
  · rintro ⟨i, hi, rfl⟩
    omega
  · rintro ⟨h1, h2, h3⟩
    exact ⟨(k - 30) / 30, by omega, by omega⟩

/-- C1: for every query and every max-results value N, each text back end
returns a list of length at most N (in fact at most the clamped bound
min(N, 2023) the source hands to islice), obtained by truncating the merged
deduplicated results; when max_results is unset the returned list is exactly
the deduplicated result list of the single page at offset 0, and the offset
schedule contains no further page. -/
theorem C1_paginationBound (norm nurl : String → String) (kw : String) (n : Nat)
    (apiEnv : Nat → List TextRow) (htmlEnv : Nat → HtmlPage)
    (liteEnv : Nat → LitePage) :
    ((textApiSearch norm nurl apiEnv kw (some n)).length ≤ min n 2023 ∧
     (textHtmlSearch norm nurl htmlEnv (some n)).length ≤ min n 2023 ∧
     (textLiteSearch norm nurl liteEnv (some n)).length ≤ min n 2023) ∧
    ((textApiSearch norm nurl apiEnv kw (some n)).length ≤ n ∧
     (textHtmlSearch norm nurl htmlEnv (some n)).length ≤ n ∧
     (textLiteSearch norm nurl liteEnv (some n)).length ≤ n) ∧
    (textApiSearch norm nurl apiEnv kw none = (textApiPage norm nurl kw (apiEnv 0) []).1 ∧
     textHtmlSearch norm nurl htmlEnv none = (textHtmlPage norm nurl (htmlEnv 0) []).1 ∧
     textLiteSearch norm nurl liteEnv none = (textLitePage norm nurl (liteEnv 0) []).1) ∧
    textOffsets none = [0] := by
  have hb : ∀ xs : List SearchResult,
      (truncateTo (clampedMax 2023 (some n)) xs).length ≤ min n 2023 := by
    intro xs
    by_cases hn : n = 0
    · subst hn
      simp [clampedMax, truncateTo]
    · simp only [clampedMax, if_neg hn, truncateTo, List.length_take]
      omega
  refine ⟨⟨hb _, hb _, hb _⟩,
    ⟨le_trans (hb _) (Nat.min_le_left n 2023),
     le_trans (hb _) (Nat.min_le_left n 2023),
     le_trans (hb _) (Nat.min_le_left n 2023)⟩, ⟨?_, ?_, ?_⟩, rfl⟩
  · simp [textApiSearch, truncateTo, clampedMax, textOffsets, searchOffsets,
      runPagesC]
  · simp [textHtmlSearch, truncateTo, clampedMax, textOffsets, searchOffsets,
      runPagesC]
  · simp [textLiteSearch, truncateTo, clampedMax, textOffsets, searchOffsets,
      runPagesC]

/-- C3: every scheduled page-offset sequence contains offset 0; when a
max-results value N is given it is clamped to the backend ceiling (2023 for
the text back ends, 500 for images, 400 for videos, 120 for news) and the
further offsets are exactly the multiples of the backend stride from the
backend start (23 stepping 50 for text, 100 stepping 100 for images, 60
stepping 60 for videos, 30 stepping 30 for news) below the clamped value. -/
theorem C3_offsetSchedule :
    (∀ m : Option Nat,
      0 ∈ textOffsets m ∧ 0 ∈ imagesOffsets m ∧ 0 ∈ videosOffsets m ∧
        0 ∈ newsOffsets m) ∧
    (∀ n k : Nat,
      (k ∈ textOffsets (some n) ↔
        k = 0 ∨ (23 ≤ k ∧ k < min n 2023 ∧ (k - 23) % 50 = 0)) ∧
      (k ∈ imagesOffsets (some n) ↔
        k = 0 ∨ (100 ≤ k ∧ k < min n 500 ∧ (k - 100) % 100 = 0)) ∧
      (k ∈ videosOffsets (some n) ↔
        k = 0 ∨ (60 ≤ k ∧ k < min n 400 ∧ (k - 60) % 60 = 0)) ∧
      (k ∈ newsOffsets (some n) ↔
        k = 0 ∨ (30 ≤ k ∧ k < min n 120 ∧ (k - 30) % 30 = 0))) := by
  constructor
  · rintro (_ | n) <;>
      simp only [textOffsets, imagesOffsets, videosOffsets, newsOffsets,
        searchOffsets] <;>
      [skip; by_cases hn : n = 0] <;> simp_all
  · intro n k
    by_cases hn : n = 0
    · subst hn
      simp [textOffsets, imagesOffsets, videosOffsets, newsOffsets,
        searchOffsets]
    · simp only [textOffsets, imagesOffsets, videosOffsets, newsOffsets,
        searchOffsets, if_neg hn, List.mem_cons, mem_pyRange_23_50,
        mem_pyRange_100_100, mem_pyRange_60_60, mem_pyRange_30_30]
      tauto

/-- C10: with the HTML parser library available (so no fallback to the api
backend happens), the public text dispatch returns a value exactly when the
backend string is one of api, html, lite; any other backend leaves the
results local unassigned and the call fails. -/
theorem C10_backendDispatch (norm nurl : String → String)
    (apiEnv : Nat → List TextRow) (htmlEnv : Nat → HtmlPage)
    (liteEnv : Nat → LitePage) (kw backend : String) (m : Option Nat) :
    (text norm nurl true apiEnv htmlEnv liteEnv kw backend m).isSome ↔
      backend = "api" ∨ backend = "html" ∨ backend = "lite" := by
  by_cases h1 : backend = "api" <;> by_cases h2 : backend = "html" <;>
    by_cases h3 : backend = "lite" <;> simp [text, h1, h2, h3]

/-! ## Deduplication (C2) -/

theorem nodup_append_singleton {l : List String} {a : String}
    (h : l.Nodup) (ha : a ∉ l) : (l ++ [a]).Nodup := by
  simp only [List.nodup_append, List.nodup_cons, List.not_mem_nil,
    not_false_iff, List.nodup_nil, and_true, true_and, h]
  intro x hx hxa
  simp only [List.mem_singleton] at hxa
  exact ha (hxa ▸ hx)

theorem textApiPage_cache_nodup (norm nurl : String → String) (kw : String) :
    ∀ (rows : List TextRow) (cache : List String), cache.Nodup →
      ((textApiPage norm nurl kw rows cache).2).Nodup := by
  intro rows
  induction rows with
  | nil => intro cache h; simpa [textApiPage] using h
  | cons row rest ih =>
    intro cache h
    cases hu : row.u with
    | none =>
      simp only [textApiPage, hu]
      exact ih cache h
    | some href =>
      simp only [textApiPage, hu]
      by_cases hc : href ≠ "" ∧ href ∉ cache ∧ href ≠ googleLink kw
      · rw [if_pos hc]
        by_cases hb : norm row.a ≠ ""
        · rw [if_pos hb]
          exact ih _ (nodup_append_singleton h hc.2.1)
        · rw [if_neg hb]
          exact ih _ (nodup_append_singleton h hc.2.1)
      · rw [if_neg hc]
        exact ih cache h

theorem runPagesC_cache_nodup
    (pageFn : α → List String → List SearchResult × List String)
    (hpage : ∀ (a : α) (cache : List String), cache.Nodup →
      ((pageFn a cache).2).Nodup)
    (env : Nat → α) :
    ∀ (offsets : List Nat) (cache : List String), cache.Nodup →
      ((runPagesC pageFn env offsets cache).2).Nodup := by
  intro offsets
  induction offsets with
  | nil => intro cache h; simpa [runPagesC] using h
  | cons s rest ih =>
    intro cache h
    simp only [runPagesC]
    exact ih _ (hpage _ _ h)

/-- C2 counterexample: the claim says the merged list of a text search whose
pages carry an overlapping identity key contains that key exactly once,
keeping the first occurrence.  Here both scheduled pages carry the key h, yet
the merged list is empty, because the first occurrence is accepted into the
dedup cache before the body check, produces no result for its empty body, and
its cache entry then silently drops the second, emittable occurrence. -/
theorem C2_dedupCounterexample :
    ((fun s => if s = 0 then [TextRow.mk (some "h") "t1" ""]
      else if s = 23 then [TextRow.mk (some "h") "t2" "body"]
      else []) 0).map TextRow.u = [some "h"] ∧
    ((fun s => if s = 0 then [TextRow.mk (some "h") "t1" ""]
      else if s = 23 then [TextRow.mk (some "h") "t2" "body"]
      else ([] : List TextRow)) 23).map TextRow.u = [some "h"] ∧
    textOffsets (some 30) = [0, 23] ∧
    textApiSearch id id
      (fun s => if s = 0 then [TextRow.mk (some "h") "t1" ""]
        else if s = 23 then [TextRow.mk (some "h") "t2" "body"]
        else []) "k" (some 30) = [] := by
  refine ⟨rfl, rfl, by decide, by decide⟩

/-- C2 amended: each identity key is accepted into a text-api dedup cache at
most once (the cache stays duplicate-free across rows and pages); a row whose
href is already cached is silently dropped with no effect at all; a first
occurrence that passes the filters is accepted, emits its result exactly when
its normalized body is nonempty, and consumes the key even when it emits
nothing, so the key appears in the merged list exactly when the first
occurrence is emittable, never more than once. -/
theorem C2_dedupAmended (norm nurl : String → String) (kw : String)
    (row : TextRow) (rest : List TextRow) (cache : List String) (h : String)
    (hu : row.u = some h) :
    (∀ (rows : List TextRow) (cache0 : List String), cache0.Nodup →
      ((textApiPage norm nurl kw rows cache0).2).Nodup) ∧
    (∀ (env : Nat → List TextRow) (offsets : List Nat)
      (cache0 : List String), cache0.Nodup →
      ((runPagesC (textApiPage norm nurl kw) env offsets cache0).2).Nodup) ∧
    (h ∈ cache →
      textApiPage norm nurl kw (row :: rest) cache =
        textApiPage norm nurl kw rest cache) ∧
    (h ≠ "" → h ∉ cache → h ≠ googleLink kw → norm row.a ≠ "" →
      textApiPage norm nurl kw (row :: rest) cache =
        (SearchResult.mk (norm row.t) (nurl h) (norm row.a) ::
          (textApiPage norm nurl kw rest (cache ++ [h])).1,
         (textApiPage norm nurl kw rest (cache ++ [h])).2)) ∧
    (h ≠ "" → h ∉ cache → h ≠ googleLink kw → norm row.a = "" →
      textApiPage norm nurl kw (row :: rest) cache =
        textApiPage norm nurl kw rest (cache ++ [h])) := by
  refine ⟨textApiPage_cache_nodup norm nurl kw,
    fun env => runPagesC_cache_nodup _
      (fun a c hc => textApiPage_cache_nodup norm nurl kw a c hc) env,
    ?_, ?_, ?_⟩
  · intro hmem
    simp [textApiPage, hu, hmem]
  · intro hne hnm hng hb
    simp [textApiPage, hu, hne, hnm, hng, hb]
  · intro hne hnm hng hb
    simp [textApiPage, hu, hne, hnm, hng, hb]

/-- C2 witness: the amended dedup behavior at a concrete duplicate row. -/
theorem C2_dedupWitness :
    textApiPage id id "k" [TextRow.mk (some "h") "t2" "body"] ["h"] =
      textApiPage id id "k" [] ["h"] ∧
    textApiPage id id "k" [] ["h"] = ([], ["h"]) := by
  refine ⟨?_, by decide⟩
  exact (C2_dedupAmended id id "k" (TextRow.mk (some "h") "t2" "body") []
    ["h"] "h" rfl).2.2.1 (by decide)

/-! ## Transport lemmas (C4, C5) -/

theorem runGetUrl_tripped (calls : List (String × NetResult)) :
    runGetUrl true calls = calls.map (fun _ =>
      (Except.error (DdgError.generic "Exception occurred in previous call."),
        false)) := by
  induction calls with
  | nil => rfl
  | cons c rest ih =>
    obtain ⟨url, net⟩ := c
    simp [runGetUrl, getUrl, ih]

theorem trippedAfter_true (calls : List (String × NetResult)) :
    trippedAfter true calls = true := by
  induction calls with
  | nil => rfl
  | cons c rest ih =>
    obtain ⟨url, net⟩ := c
    simpa [trippedAfter, getUrl] using ih

theorem getUrl_fail_sets (t : Bool) (url : String) (net : NetResult)
    (h : failed (getUrl t url net).1 = true) : (getUrl t url net).2.1 = true := by
  cases t
  · cases net with
    | exn exName exMsg =>
      by_cases ht : hasSubstr (lowerStr exMsg) "time" = true <;>
        simp_all [getUrl]
    | resp status respUrl body =>
      by_cases h200 : status = 200
      · simp [getUrl, h200, failed] at h
      · by_cases hr : status = 202 ∨ status = 301 ∨ status = 403 <;>
          simp [getUrl, h200, hr]
  · simp [getUrl]

theorem runGetUrl_fail_drop :
    ∀ (calls : List (String × NetResult)) (t : Bool) (i : Nat)
      (h : i < (runGetUrl t calls).length),
      failed ((runGetUrl t calls).get ⟨i, h⟩).1 = true →
      (runGetUrl t calls).drop (i + 1) =
        (calls.drop (i + 1)).map (fun _ =>
          (Except.error
            (DdgError.generic "Exception occurred in previous call."),
           false)) := by
  intro calls
  induction calls with
  | nil =>
    intro t i h
    simp [runGetUrl] at h
  | cons c rest ih =>
    obtain ⟨url, net⟩ := c
    intro t i h hfail
    cases i with
    | zero =>
      simp only [runGetUrl, List.get] at hfail ⊢
      rw [getUrl_fail_sets t url net hfail]
      simpa using runGetUrl_tripped rest
    | succ i =>
      simp only [runGetUrl, List.get, List.drop_succ_cons] at hfail ⊢
      exact ih _ i _ hfail

theorem trippedAfter_fail :
    ∀ (calls : List (String × NetResult)) (t : Bool) (i : Nat)
      (h : i < (runGetUrl t calls).length),
      failed ((runGetUrl t calls).get ⟨i, h⟩).1 = true →
      trippedAfter t calls = true := by
  intro calls
  induction calls with
  | nil =>
    intro t i h
    simp [runGetUrl] at h
  | cons c rest ih =>
    obtain ⟨url, net⟩ := c
    intro t i h hfail
    cases i with
    | zero =>
      simp only [runGetUrl, List.get] at hfail
      simp only [trippedAfter]
      rw [getUrl_fail_sets t url net hfail]
      exact trippedAfter_true rest
    | succ i =>
      simp only [runGetUrl, List.get] at hfail
      simp only [trippedAfter]
      exact ih _ i _ hfail

/-- C4: in any sequence of _get_url calls on one instance, once some call
fails (network exception or non-200 status, including an already-latched
failure), every later call of the sequence returns the previous-call failure
immediately without attempting network I/O, the flag is set at the end of the
sequence, and a set flag is never reset by any further sequence of calls. -/
theorem C4_failFastLatch (calls : List (String × NetResult)) (i : Nat)
    (h : i < (runGetUrl false calls).length)
    (hfail : failed ((runGetUrl false calls).get ⟨i, h⟩).1 = true) :
    ((runGetUrl false calls).drop (i + 1) =
      (calls.drop (i + 1)).map (fun _ =>
        (Except.error (DdgError.generic "Exception occurred in previous call."),
         false))) ∧
    trippedAfter false calls = true ∧
    (∀ calls2 : List (String × NetResult), trippedAfter true calls2 = true) :=
  ⟨runGetUrl_fail_drop calls false i h hfail,
   trippedAfter_fail calls false i h hfail,
   trippedAfter_true⟩

/-- C4 witness: after a 500 response, the second call fails immediately
without network I/O and the latch stays set. -/
theorem C4_failFastWitness :
    ((runGetUrl false
        [("u", NetResult.resp 500 "u" ""), ("v", NetResult.resp 200 "v" "x")]).drop 1 =
      ([("u", NetResult.resp 500 "u" ""),
        ("v", NetResult.resp 200 "v" "x")].drop 1).map (fun _ =>
        (Except.error (DdgError.generic "Exception occurred in previous call."),
         false))) ∧
    trippedAfter false
      [("u", NetResult.resp 500 "u" ""), ("v", NetResult.resp 200 "v" "x")] = true ∧
    (∀ calls2 : List (String × NetResult), trippedAfter true calls2 = true) :=
  C4_failFastLatch
    [("u", NetResult.resp 500 "u" ""), ("v", NetResult.resp 200 "v" "x")]
    0 (by decide) (by decide)

/-- C5: a fresh-latch _get_url call returns the body exactly when the status
is 200; statuses 202, 301, 403 raise the rate-limited error; every other
non-200 status raises the generic error; a raising request raises the timeout
error exactly when its text contains the timeout indicator (the substring
time after lowercasing) and the generic error otherwise; and every failing
call sets the fail-fast flag. -/
theorem C5_transportClassification (url exName exMsg : String) (status : Nat)
    (respUrl body : String) :
    ((getUrl false url (NetResult.resp status respUrl body)).1 =
        Except.ok body ↔ status = 200) ∧
    (status = 202 ∨ status = 301 ∨ status = 403 →
      getUrl false url (NetResult.resp status respUrl body) =
        (Except.error (DdgError.ratelimit
          (respUrl ++ " " ++ toString status ++ " Ratelimit")), true, true)) ∧
    (status ≠ 200 → ¬(status = 202 ∨ status = 301 ∨ status = 403) →
      getUrl false url (NetResult.resp status respUrl body) =
        (Except.error (DdgError.generic (respUrl ++ " return None.")),
         true, true)) ∧
    ((getUrl false url (NetResult.exn exName exMsg)).1 =
        Except.error (DdgError.timeout
          (url ++ " " ++ exName ++ ": " ++ exMsg)) ↔
      hasSubstr (lowerStr exMsg) "time" = true) ∧
    (hasSubstr (lowerStr exMsg) "time" = false →
      getUrl false url (NetResult.exn exName exMsg) =
        (Except.error (DdgError.generic
          (url ++ " " ++ exName ++ ": " ++ exMsg)), true, true)) ∧
    (∀ net : NetResult, failed (getUrl false url net).1 = true →
      (getUrl false url net).2.1 = true) := by
  refine ⟨?_, ?_, ?_, ?_, ?_, fun net => getUrl_fail_sets false url net⟩
  · by_cases h200 : status = 200
    · simp [getUrl, h200]
    · by_cases hr : status = 202 ∨ status = 301 ∨ status = 403 <;>
        simp [getUrl, h200, hr]
  · intro hr
    have h200 : ¬ status = 200 := by rcases hr with rfl | rfl | rfl <;> decide
    simp [getUrl, h200, hr]
  · intro h200 hr
    simp [getUrl, h200, hr]
  · by_cases ht : hasSubstr (lowerStr exMsg) "time" = true <;>
      simp [getUrl, ht]
  · intro ht
    simp [getUrl, ht]

/-- C5 witness: the classification at concrete calls. -/
theorem C5_transportWitness :
    (getUrl false "u" (NetResult.resp 403 "r" "b") =
      (Except.error (DdgError.ratelimit
        ("r" ++ " " ++ toString 403 ++ " Ratelimit")), true, true)) ∧
    (getUrl false "u" (NetResult.resp 500 "r" "b") =
      (Except.error (DdgError.generic ("r" ++ " return None.")), true, true)) ∧
    (getUrl false "u" (NetResult.exn "ConnectError" "connection refused") =
      (Except.error (DdgError.generic
        ("u" ++ " " ++ "ConnectError" ++ ": " ++ "connection refused")),
       true, true)) :=
  ⟨(C5_transportClassification "u" "n" "m" 403 "r" "b").2.1 (by decide),
   (C5_transportClassification "u" "n" "m" 500 "r" "b").2.2.1
     (by decide) (by decide),
   (C5_transportClassification "u" "ConnectError" "connection refused"
     500 "r" "b").2.2.2.2.1 (by decide)⟩

/-! ## Lite row-cycle resynchronization (C6) -/

/-- C6: in the lite extractor the table rows cycle through 4 role positions;
a row at cycle position 1 that is filtered out (no href, cached href, or a
blocked ad/redirect link) makes the parser consume exactly the remaining 3
rows of that 4-row run and restart at position 1, and a following unfiltered
run is then parsed correctly: its link row and snippet row produce the
expected result and the remaining rows continue in phase (position 3). -/
theorem C6_liteResync (norm nurl : String → String)
    (f1 r2 r3 r4 e1 e2 : LiteRow) (rest : List LiteRow)
    (h0 : Option String) (t0 : String) (cache : List String) (h : String)
    (hfilter : f1.href = none ∨
      ∃ hf, f1.href = some hf ∧ (hf ∈ cache ∨ blockedLink hf = true))
    (he1 : e1.href = some h) (hnm : h ∉ cache)
    (hbl : blockedLink h = false) (hne : h ≠ "") :
    (liteRows norm nurl (f1 :: r2 :: r3 :: r4 :: e1 :: e2 :: rest) 1 h0 t0 cache =
      (SearchResult.mk (norm e1.atext) (nurl h) (norm e2.snippet) ::
        (liteRows norm nurl rest 3 (some h) e1.atext (cache ++ [h])).1,
       (liteRows norm nurl rest 3 (some h) e1.atext (cache ++ [h])).2)) ∧
    (∀ (e : LiteRow) (tail : List LiteRow) (hx : Option String) (tx : String)
      (cx : List String), e.href = none →
      liteRows norm nurl (e :: tail) 1 hx tx cx =
        liteRows norm nurl (tail.drop 3) 1 none tx cx) ∧
    (∀ (e : LiteRow) (tail : List LiteRow) (hx : Option String) (tx : String)
      (cx : List String) (hh : String), e.href = some hh →
      (hh ∈ cx ∨ blockedLink hh = true) →
      liteRows norm nurl (e :: tail) 1 hx tx cx =
        liteRows norm nurl (tail.drop 3) 1 (some hh) tx cx) := by
  refine ⟨?_, ?_, ?_⟩
  · have hstep : ∀ hX : Option String,
        liteRows norm nurl (e1 :: e2 :: rest) 1 hX t0 cache =
          (SearchResult.mk (norm e1.atext) (nurl h) (norm e2.snippet) ::
            (liteRows norm nurl rest 3 (some h) e1.atext (cache ++ [h])).1,
           (liteRows norm nurl rest 3 (some h) e1.atext (cache ++ [h])).2) := by
      intro hX
      have hacc : liteRows norm nurl (e1 :: e2 :: rest) 1 hX t0 cache =
          liteRows norm nurl (e2 :: rest) 2 (some h) e1.atext (cache ++ [h]) := by
        rcases rest with _ | ⟨a, _ | ⟨b, t⟩⟩ <;>
          · rw [liteRows.eq_def]
            simp [he1, hnm, hbl]
      rw [hacc, liteRows.eq_def]
      simp [hne]
    rcases hfilter with hnone | ⟨hf, hhf, hmem⟩
    · rw [liteRows.eq_def]
      simp only [hnone]
      exact hstep none
    · rw [liteRows.eq_def]
      simp only [hhf]
      rw [if_pos (by simp [hmem])]
      exact hstep (some hf)
  · intro e tail hx tx cx hnone
    rcases tail with _ | ⟨a, _ | ⟨b, _ | ⟨c, t⟩⟩⟩ <;>
      · rw [liteRows.eq_def]
        simp only [hnone, List.drop]
        try rw [liteRows.eq_def]
  · intro e tail hx tx cx hh hhh hmem
    rcases tail with _ | ⟨a, _ | ⟨b, _ | ⟨c, t⟩⟩⟩ <;>
      · rw [liteRows.eq_def]
        simp only [hhh, List.drop]
        rw [if_pos (by simp [hmem])]
        try rw [liteRows.eq_def]

/-- C6 witness: a concrete filtered run of four rows followed by a good run. -/
theorem C6_liteResyncWitness :
    liteRows id id
      [LiteRow.mk none "" "", LiteRow.mk none "" "", LiteRow.mk none "" "",
       LiteRow.mk none "" "", LiteRow.mk (some "H") "T" "",
       LiteRow.mk none "" "B"] 1 none "" [] =
      ([SearchResult.mk "T" "H" "B"], ["H"]) := by
  have hmain := C6_liteResync id id (LiteRow.mk none "" "")
    (LiteRow.mk none "" "") (LiteRow.mk none "" "") (LiteRow.mk none "" "")
    (LiteRow.mk (some "H") "T" "") (LiteRow.mk none "" "B") [] none "" [] "H"
    (Or.inl rfl) rfl (by decide) (by decide) (by decide)
  rw [hmain.1]
  decide

/-! ## Maps geo-partitioning (C7) -/

/-- C7 counterexample: the claim says each round subdivides exactly those
work-set boxes whose own diagonal span exceeds the threshold.  Starting from
the box P with corner span 1.2 by 1.2 degrees, round one (carried quadruple
and work box both P) subdivides P, so round two receives work set
quadrants P with the carried quadruple still P.  Its first quadrant Q1 has
span 0.6 by 0.6, not exceeding the threshold, yet round two subdivides Q1,
because the source evaluates the span check on the carried quadruple before
rebinding it; the claimed rule would subdivide nothing in that round. -/
theorem C7_subdivisionCounterexample :
    (mapsRound (BBox.mk (6/5) 0 0 (6/5)) [BBox.mk (6/5) 0 0 (6/5)]).1 =
      quadrants (BBox.mk (6/5) 0 0 (6/5)) ∧
    boxSpanExceeds (BBox.mk (6/5) 0 (3/5) (3/5)) = false ∧
    (mapsRound (BBox.mk (6/5) 0 0 (6/5))
        (quadrants (BBox.mk (6/5) 0 0 (6/5)))).1 =
      quadrants (BBox.mk (6/5) 0 (3/5) (3/5)) ∧
    quadrants (BBox.mk (6/5) 0 (3/5) (3/5)) ≠ [] ∧
    mapsRoundClaimed (quadrants (BBox.mk (6/5) 0 0 (6/5))) = [] := by
  have hP : boxSpanExceeds (BBox.mk (6/5) 0 0 (6/5)) = true := by
    norm_num [boxSpanExceeds]
  have hQ1 : boxSpanExceeds (BBox.mk (6/5) 0 (3/5) (3/5)) = false := by
    norm_num [boxSpanExceeds]
  have hQ2 : boxSpanExceeds (BBox.mk (6/5) (3/5) (3/5) (6/5)) = false := by
    norm_num [boxSpanExceeds]
  have hQ3 : boxSpanExceeds (BBox.mk (3/5) 0 0 (3/5)) = false := by
    norm_num [boxSpanExceeds]
  have hQ4 : boxSpanExceeds (BBox.mk (3/5) (3/5) 0 (6/5)) = false := by
    norm_num [boxSpanExceeds]
  have hq : quadrants (BBox.mk (6/5) 0 0 (6/5)) =
      [BBox.mk (6/5) 0 (3/5) (3/5), BBox.mk (6/5) (3/5) (3/5) (6/5),
       BBox.mk (3/5) 0 0 (3/5), BBox.mk (3/5) (3/5) 0 (6/5)] := by
    simp only [quadrants]
    norm_num
  refine ⟨?_, hQ1, ?_, by simp [quadrants], ?_⟩
  · simp [mapsRound, hP]
  · rw [hq]
    simp [mapsRound, hP, hQ1]
  · rw [hq]
    simp [mapsRoundClaimed, hQ1, hQ2, hQ3, hQ4]

/-- C7 amended: a box of the work set is subdivided exactly when the span
check passes on the carried coordinate quadruple (initially the start box,
rebound to the current box on each passing check), not on the box's own span;
a subdivided box is split at its latitude and longitude midpoints into four
quadrant boxes whose union exactly tiles it, enqueued in work order for the
next round. -/
theorem C7_subdivisionAmended :
    (∀ (b : BBox) (la lo : ℚ),
      pointInBox la lo b ↔ ∃ q ∈ quadrants b, pointInBox la lo q) ∧
    (∀ (v b : BBox) (rest : List BBox), boxSpanExceeds v = true →
      mapsRound v (b :: rest) =
        (quadrants b ++ (mapsRound b rest).1, (mapsRound b rest).2)) ∧
    (∀ (v b : BBox) (rest : List BBox), boxSpanExceeds v = false →
      mapsRound v (b :: rest) = mapsRound v rest) := by
  refine ⟨?_, ?_, ?_⟩
  · intro b la lo
    constructor
    · rintro ⟨h1, h2, h3, h4⟩
      rcases le_total la ((b.latT + b.latB) / 2) with hla | hla <;>
        rcases le_total lo ((b.lonL + b.lonR) / 2) with hlo | hlo
      · exact ⟨BBox.mk ((b.latT + b.latB) / 2) b.lonL b.latB
          ((b.lonL + b.lonR) / 2), by simp [quadrants], h1, hla, h3, hlo⟩
      · exact ⟨BBox.mk ((b.latT + b.latB) / 2) ((b.lonL + b.lonR) / 2)
          b.latB b.lonR, by simp [quadrants], h1, hla, hlo, h4⟩
      · exact ⟨BBox.mk b.latT b.lonL ((b.latT + b.latB) / 2)
          ((b.lonL + b.lonR) / 2), by simp [quadrants], hla, h2, h3, hlo⟩
      · exact ⟨BBox.mk b.latT ((b.lonL + b.lonR) / 2)
          ((b.latT + b.latB) / 2) b.lonR, by simp [quadrants], hla, h2, hlo, h4⟩
    · rintro ⟨q, hq, hp⟩
      simp only [quadrants, List.mem_cons, List.not_mem_nil, or_false] at hq
      obtain ⟨hq1, hq2, hq3, hq4⟩ := hp
      rcases hq with rfl | rfl | rfl | rfl <;>
        simp only at hq1 hq2 hq3 hq4 <;>
        exact ⟨by linarith, by linarith, by linarith, by linarith⟩
  · intro v b rest hv
    simp [mapsRound, hv]
  · intro v b rest hv
    simp [mapsRound, hv]

/-- C7 witness: the amended round behavior at concrete boxes. -/
theorem C7_subdivisionWitness :
    (mapsRound (BBox.mk 2 0 0 2) [BBox.mk 1 0 0 1] =
      (quadrants (BBox.mk 1 0 0 1) ++ (mapsRound (BBox.mk 1 0 0 1) []).1,
       (mapsRound (BBox.mk 1 0 0 1) []).2)) ∧
    (mapsRound (BBox.mk 0 0 0 0) [BBox.mk 1 0 0 1] =
      mapsRound (BBox.mk 0 0 0 0) []) :=
  ⟨C7_subdivisionAmended.2.1 (BBox.mk 2 0 0 2) (BBox.mk 1 0 0 1) []
     (by norm_num [boxSpanExceeds]),
   C7_subdivisionAmended.2.2 (BBox.mk 0 0 0 0) (BBox.mk 1 0 0 1) []
     (by norm_num [boxSpanExceeds])⟩

/-! ## Chat (C8, C9) -/

/-- C8: when the decoded chat stream carries an error fragment, the raised
failure is conversation-limit-exceeded exactly when the fragment has status
429 and error code ERR_CONVERSATION_LIMIT; a 429 fragment with any other code
raises the rate-limited error; every other error fragment raises the generic
chat failure. -/
theorem C8_chatErrorClassification (x : ChatFragment)
    (rest : List ChatFragment) (acc : List String)
    (herr : x.action = some "error") :
    ((chatDecode (x :: rest) acc =
        ChatResult.convLimit (x.errType.getD "")) ↔
      (x.status = some 429 ∧ x.errType = some "ERR_CONVERSATION_LIMIT")) ∧
    (x.status = some 429 → x.errType ≠ some "ERR_CONVERSATION_LIMIT" →
      chatDecode (x :: rest) acc = ChatResult.rateLimit (x.errType.getD "")) ∧
    (x.status ≠ some 429 →
      chatDecode (x :: rest) acc = ChatResult.fail (x.errType.getD "")) := by
  refine ⟨?_, ?_, ?_⟩
  · constructor
    · intro hdec
      by_cases hs : x.status = some 429
      · by_cases ht : x.errType.getD "" = "ERR_CONVERSATION_LIMIT"
        · refine ⟨hs, ?_⟩
          cases hx : x.errType with
          | none => rw [hx] at ht; exact absurd ht (by decide)
          | some s =>
            rw [hx] at ht
            simp only [Option.getD_some] at ht
            rw [ht]
        · simp [chatDecode, herr, hs, ht] at hdec
      · simp [chatDecode, herr, hs] at hdec
    · rintro ⟨hs, ht⟩
      simp [chatDecode, herr, hs, ht]
  · intro hs ht
    have htd : x.errType.getD "" ≠ "ERR_CONVERSATION_LIMIT" := by
      cases hx : x.errType with
      | none => decide
      | some s =>
        rw [hx] at ht
        simpa using fun hc => ht (by rw [hc])
    simp [chatDecode, herr, hs, htd]
  · intro hs
    simp [chatDecode, herr, hs]

/-- C8 witness: the three classifications at concrete fragments. -/
theorem C8_chatErrorWitness :
    chatDecode [ChatFragment.mk (some "error")
        (some "ERR_CONVERSATION_LIMIT") (some 429) none] [] =
      ChatResult.convLimit ((some "ERR_CONVERSATION_LIMIT").getD "") ∧
    chatDecode [ChatFragment.mk (some "error") (some "ERR_OTHER")
        (some 429) none] [] =
      ChatResult.rateLimit ((some "ERR_OTHER" : Option String).getD "") ∧
    chatDecode [ChatFragment.mk (some "error") (some "ERR_OTHER")
        (some 500) none] [] =
      ChatResult.fail ((some "ERR_OTHER" : Option String).getD "") :=
  ⟨(C8_chatErrorClassification
      (ChatFragment.mk (some "error") (some "ERR_CONVERSATION_LIMIT")
        (some 429) none) [] [] rfl).1.mpr ⟨rfl, rfl⟩,
   (C8_chatErrorClassification
      (ChatFragment.mk (some "error") (some "ERR_OTHER") (some 429) none)
      [] [] rfl).2.1 rfl (by decide),
   (C8_chatErrorClassification
      (ChatFragment.mk (some "error") (some "ERR_OTHER") (some 500) none)
      [] [] rfl).2.2 (by decide)⟩

/-- C9: a chat call whose decoded stream raises leaves the session state
already mutated: the user turn appended at the start of the call is present
and is the last entry of the message history (no assistant turn, no
rollback), the session token has been replaced by the failing response's
header value, and the resulting state differs from the initial one, so a
failed chat call is not atomic with respect to the conversation state. -/
theorem C9_chatNotAtomic (st : ChatState) (kw statusVqd respVqd : String)
    (frags : List ChatFragment)
    (hfail : ((chatCall st kw statusVqd respVqd frags).1).isOk = false) :
    ((chatCall st kw statusVqd respVqd frags).2).chatMessages =
      st.chatMessages ++ [ChatMsg.mk "user" kw] ∧
    ((chatCall st kw statusVqd respVqd frags).2).chatMessages.getLast? =
      some (ChatMsg.mk "user" kw) ∧
    ((chatCall st kw statusVqd respVqd frags).2).chatVqd = respVqd ∧
    (chatCall st kw statusVqd respVqd frags).2 ≠ st := by
  have hmsg : ((chatCall st kw statusVqd respVqd frags).2).chatMessages =
      st.chatMessages ++ [ChatMsg.mk "user" kw] ∧
      ((chatCall st kw statusVqd respVqd frags).2).chatVqd = respVqd := by
    cases hd : chatDecode frags [] with
    | ok parts =>
      exfalso
      simp [chatCall, hd, ChatResult.isOk] at hfail
    | convLimit m =>
      by_cases hv : st.chatVqd = "" <;> simp [chatCall, hd, hv]
    | rateLimit m =>
      by_cases hv : st.chatVqd = "" <;> simp [chatCall, hd, hv]
    | fail m =>
      by_cases hv : st.chatVqd = "" <;> simp [chatCall, hd, hv]
  refine ⟨hmsg.1, ?_, hmsg.2, ?_⟩
  · rw [hmsg.1]
    simp
  · intro heq
    have := hmsg.1
    rw [heq] at this
    have hlen := congrArg List.length this
    simp at hlen

/-- C9 witness: a failing chat call at a concrete state. -/
theorem C9_chatWitness :
    ((chatCall (ChatState.mk [] "" 0) "hi" "sv" "rv"
        [ChatFragment.mk (some "error") none none none]).2).chatMessages =
      [] ++ [ChatMsg.mk "user" "hi"] ∧
    ((chatCall (ChatState.mk [] "" 0) "hi" "sv" "rv"
        [ChatFragment.mk (some "error") none none none]).2).chatMessages.getLast? =
      some (ChatMsg.mk "user" "hi") ∧
    ((chatCall (ChatState.mk [] "" 0) "hi" "sv" "rv"
        [ChatFragment.mk (some "error") none none none]).2).chatVqd = "rv" ∧
    (chatCall (ChatState.mk [] "" 0) "hi" "sv" "rv"
        [ChatFragment.mk (some "error") none none none]).2 ≠
      ChatState.mk [] "" 0 :=
  C9_chatNotAtomic (ChatState.mk [] "" 0) "hi" "sv" "rv"
    [ChatFragment.mk (some "error") none none none] (by decide)

end Ddgs
